import Mathlib

/-!
Shallow embedding of the Clock Slayer backend (`server.js`): the weekly
report pipeline `generateWeeklyCSV`, the email task `sendWeeklyEmail`, the
cron/manual-trigger wiring, and the HTTP endpoint handlers.

Numbers are modelled as `ℚ` (idealizing JS IEEE doubles on the decimal
values this program handles); timestamps are milliseconds since the Unix
epoch (`Nat`), as in `Date.getTime()`, interpreted in UTC (the code derives
calendar dates with `toISOString`, which is UTC).
-/

namespace ClockSlayer

/-! ### Decimal digits, rendering and parsing

Helpers for the JS string/number conversions the source leans on:
template-literal number rendering, `Number.prototype.toFixed(2)` and
`parseFloat`. -/

/-- The character for a decimal digit `d < 10`. -/
def digitChar (d : Nat) : Char := Char.ofNat (48 + d)

/-- Numeric value of a decimal digit character. -/
def charDigit (c : Char) : Nat := c.toNat - 48

/-- Whether a character is an ASCII decimal digit. -/
def isDigitChar (c : Char) : Bool := 48 ≤ c.toNat && c.toNat ≤ 57

/-- Decimal digits of a natural number, most significant first; fuel-based
so that it is structurally recursive (any `fuel > n` is enough). -/
def natToDigitsAux : Nat → Nat → List Nat
  | 0, _ => []
  | fuel + 1, n => if n < 10 then [n] else natToDigitsAux fuel (n / 10) ++ [n % 10]

/-- Decimal digits of a natural number, most significant first. -/
def natToDigits (n : Nat) : List Nat := natToDigitsAux (n + 1) n

/-- Decimal representation of a natural number as characters (the way a JS
template literal renders a nonnegative integer). -/
def natToChars (n : Nat) : List Char := (natToDigits n).map digitChar

/-- Value of a big-endian digit list. -/
def digitsVal (ds : List Nat) : Nat := ds.foldl (fun a d => 10 * a + d) 0

/-- Value of a big-endian list of digit characters. -/
def digitsToNat (cs : List Char) : Nat := cs.foldl (fun a c => 10 * a + charDigit c) 0

/-- Two-digit zero-padded decimal rendering (for `n < 100`). -/
def pad2 (n : Nat) : List Char := if n < 10 then '0' :: natToChars n else natToChars n

/-- Four-digit zero-padded decimal rendering. -/
def pad4 (n : Nat) : List Char :=
  let ds := natToChars n
  List.replicate (4 - ds.length) '0' ++ ds

/-- A rational rounded to 2 decimal places, rounding halves up, as
`Number.prototype.toFixed(2)` does on the exact value. -/
def round2 (q : ℚ) : ℚ := (round (q * 100) : ℤ) / 100

/-- Model of JS `q.toFixed(2)`: render `q` rounded to two decimals, always
with exactly two fraction digits. -/
def toFixed2 (q : ℚ) : String :=
  let n : ℤ := round (q * 100)
  let m : Nat := n.natAbs
  let body : List Char := natToChars (m / 100) ++ '.' :: pad2 (m % 100)
  ⟨if n < 0 then '-' :: body else body⟩

/-- Fraction part of the parsed decimal: digits before any non-digit form
the integer part; an optional single dot introduces fraction digits. -/
def parseUnsignedChars (cs : List Char) : ℚ :=
  let intChars := cs.takeWhile isDigitChar
  let intPart : ℚ := digitsToNat intChars
  match cs.dropWhile isDigitChar with
  | '.' :: rest =>
      let fracChars := rest.takeWhile isDigitChar
      intPart + (digitsToNat fracChars : ℚ) / ((10 : ℚ) ^ fracChars.length)
  | _ => intPart

/-- Model of JS `parseFloat` on the plain decimal strings this program
produces (optional leading minus sign, digits, optional dot and fraction
digits); exotic inputs (whitespace, exponents, `Infinity`) never arise. -/
def parseFloatChars (cs : List Char) : ℚ :=
  if cs.head? = some '-' then - parseUnsignedChars cs.tail else parseUnsignedChars cs

/-- `parseFloat` on a string. -/
def parseFloatS (s : String) : ℚ := parseFloatChars s.data

/-- Fraction digits of `r / d` (with `r < d`), at most `fuel` of them;
used only to render numbers into CSV text. -/
def fracDigits : Nat → Nat → Nat → List Char
  | 0, _, _ => []
  | fuel + 1, r, d =>
      if r = 0 then []
      else digitChar (r * 10 / d) :: fracDigits fuel (r * 10 % d) d

/-- Decimal rendering of a rational, the way JS renders a number whose
decimal expansion terminates (e.g. `12.5` renders as "12.5", `10` as
"10"); 20 fraction digits at most, which covers every value this program
produces. -/
def renderRat (q : ℚ) : String :=
  let m := q.num.natAbs
  let d := q.den
  let frac := fracDigits 20 (m % d) d
  let body := natToChars (m / d) ++ (if frac.isEmpty then [] else '.' :: frac)
  ⟨if q.num < 0 then '-' :: body else body⟩

/-! ### JS values

Fields whose JS value can be a number or a string (the mileage cell is a
numeric sum when present and truthy, and the string `'0.00'` otherwise). -/

/-- A JS value that is either a number or a string. -/
inductive JVal where
  | num (q : ℚ)
  | str (s : String)
deriving DecidableEq

/-- JS `parseFloat` applied to a number-or-string value (a number is
converted to itself). -/
def parseFloatV : JVal → ℚ
  | .num q => q
  | .str s => parseFloatS s

/-- Render a number-or-string value into CSV text the way
`csv-writer` stringifies the field. -/
def JVal.render : JVal → String
  | .num q => renderRat q
  | .str s => s

/-- JS `x || dflt` where `x` is an optional number (absent object key is
`undefined`): `undefined` and the number `0` are falsy, so both yield the
default. -/
def jsNumOr (v : Option ℚ) (dflt : JVal) : JVal :=
  match v with
  | none => dflt
  | some q => if q = 0 then dflt else .num q

/-- JS `x || dflt` where `x` is an optional string: `undefined` and the
empty string are falsy. -/
def jsStrOr (v : Option String) (dflt : String) : String :=
  match v with
  | none => dflt
  | some s => if s = "" then dflt else s

/-! ### Calendar dates and times (UTC) -/

/-- Milliseconds per day. -/
def msPerDay : Nat := 86400000

/-- Milliseconds per hour. -/
def msPerHour : Nat := 3600000

/-- Milliseconds per minute. -/
def msPerMinute : Nat := 60000

/-- Gregorian calendar date `(year, month, day)` of a day count since
1970-01-01 (standard era-based civil-from-days computation). -/
def civilFromDays (z : Nat) : Nat × Nat × Nat :=
  let z' := z + 719468
  let era := z' / 146097
  let doe := z' % 146097
  let yoe := (doe - doe / 1460 + doe / 36524 - doe / 146096) / 365
  let y := yoe + era * 400
  let doy := doe - (365 * yoe + yoe / 4 - yoe / 100)
  let mp := (5 * doy + 2) / 153
  let d := doy - (153 * mp + 2) / 5 + 1
  let m := if mp < 10 then mp + 3 else mp - 9
  (if m ≤ 2 then y + 1 else y, m, d)

/-- Model of `date.toISOString().split('T')[0]`: the UTC calendar date of
a millisecond timestamp, rendered as `YYYY-MM-DD`. -/
def isoDate (ms : Nat) : String :=
  let c := civilFromDays (ms / msPerDay)
  ⟨pad4 c.1 ++ '-' :: pad2 c.2.1 ++ '-' :: pad2 c.2.2⟩

/-- Model of `date.toLocaleTimeString('en-US', {hour:'2-digit',
minute:'2-digit'})` evaluated in UTC: `hh:mm AM` / `hh:mm PM`. -/
def localeTime (ms : Nat) : String :=
  let msOfDay := ms % msPerDay
  let h := msOfDay / msPerHour
  let minute := msOfDay % msPerHour / msPerMinute
  let h12 := if h % 12 = 0 then 12 else h % 12
  ⟨pad2 h12 ++ ':' :: pad2 minute ++ ' ' :: (if h < 12 then [ 'A', 'M' ] else [ 'P', 'M' ])⟩

/-- SQLite TEXT comparison (byte order; on well-formed UTF-8 this is
codepoint-lexicographic order, modelled on the character lists). -/
def charListLt : List Char → List Char → Bool
  | [], [] => false
  | [], _ :: _ => true
  | _ :: _, [] => false
  | a :: as, b :: bs =>
      if a.toNat < b.toNat then true
      else if b.toNat < a.toNat then false
      else charListLt as bs

/-- String `≤` as SQLite's default TEXT collation orders the `date`
column for the `Op.gte` query. -/
def strLe (a b : String) : Bool := ! charListLt b.data a.data

/-! ### Data model (server.js lines 24-46)

`Project`, `TimeEntry`, `MileageEntry` as the Sequelize models define
them: ids and project references are integers, `startTime`/`endTime` are
timestamps, `duration` and `miles` decimals, `date` a `DATEONLY` stored as
a `YYYY-MM-DD` string, `notes` optional text. -/

structure Project where
  id : Nat
  name : String
deriving DecidableEq

structure TimeEntry where
  id : Nat
  projectId : Nat
  startTime : Nat
  endTime : Nat
  duration : ℚ
  notes : Option String
deriving DecidableEq

structure MileageEntry where
  id : Nat
  projectId : Nat
  miles : ℚ
  date : String
  notes : Option String
deriving DecidableEq

/-- The record store's contents at report-generation time. -/
structure Store where
  projects : List Project
  timeEntries : List TimeEntry
  mileageEntries : List MileageEntry

/-- One element of `csvData` (server.js lines 89-97). -/
structure ReportRow where
  date : String
  project : String
  timeIn : String
  timeOut : String
  totalTime : String
  mileage : JVal
  projectNotes : String
deriving DecidableEq

/-- The value `generateWeeklyCSV` resolves with (server.js lines 114-119). -/
structure Report where
  csvContent : String
  entryCount : Nat
  totalHours : String
  totalMiles : String
deriving DecidableEq

/-! ### The aggregation pipeline (server.js lines 49-120) -/

/-- `sevenDaysAgo` (lines 50-51): the query window's lower bound, seven
days before `now`. -/
def windowStart (now : Nat) : Nat := now - 7 * msPerDay

/-- The `YYYY-MM-DD` rendering of the window's lower bound
(`sevenDaysAgo.toISOString().split('T')[0]`, line 65). -/
def windowDateStr (now : Nat) : String := isoDate (windowStart now)

/-- Ordering used by the `TimeEntry.findAll` query (`order startTime ASC`). -/
def startLE (a b : TimeEntry) : Prop := a.startTime ≤ b.startTime

instance : DecidableRel startLE := fun a b => Nat.decLe a.startTime b.startTime

instance : IsTotal TimeEntry startLE := ⟨fun a b => Nat.le_total a.startTime b.startTime⟩

instance : IsTrans TimeEntry startLE := ⟨fun _ _ _ => Nat.le_trans⟩

/-- The `timeEntries` query result (lines 53-60): all stored time entries
with `startTime ≥ sevenDaysAgo`, ordered ascending by `startTime`. -/
def windowTimeEntries (store : Store) (now : Nat) : List TimeEntry :=
  List.insertionSort startLE
    (store.timeEntries.filter (fun e => decide (windowStart now ≤ e.startTime)))

/-- The `mileageEntries` query result (lines 62-68): all stored mileage
entries with `date ≥` the window's date string (TEXT comparison). -/
def windowMileageEntries (store : Store) (now : Nat) : List MileageEntry :=
  store.mileageEntries.filter (fun me => strLe (windowDateStr now) me.date)

/-- Set (or append) a key's value in an association list, modelling a JS
object property assignment. -/
def setKey {κ β : Type} [BEq κ] : List (κ × β) → κ → β → List (κ × β)
  | [], k, v => [(k, v)]
  | (k', v') :: rest, k, v =>
      if k' == k then (k, v) :: rest else (k', v') :: setKey rest k v

/-- The `projectMap` object (lines 71-72): `projects.forEach(p =>
projectMap[p.id] = p.name)`. -/
def projectMapOf (ps : List Project) : List (Nat × String) :=
  ps.foldl (fun acc p => setKey acc p.id p.name) []

/-- The mileage grouping key `` `${projectId}_${date}` `` (lines 76, 87). -/
def mkKey (pid : Nat) (date : String) : String :=
  (⟨natToChars pid⟩ : String) ++ "_" ++ date

/-- One step of the `mileageEntries.forEach` loop (lines 75-81): the key's
entry is initialized to 0 when absent (or falsy) and the entry's miles are
added to it. -/
def addMileage (acc : List (String × ℚ)) (me : MileageEntry) : List (String × ℚ) :=
  let key := mkKey me.projectId me.date
  setKey acc key (((acc.lookup key).getD 0) + me.miles)

/-- The `mileageByProjectDate` object (lines 74-81). -/
def mileageByProjectDate (mes : List MileageEntry) : List (String × ℚ) :=
  mes.foldl addMileage []

/-- One row of `csvData` (lines 83-98), built from a time entry using the
project map and the mileage sums. -/
def makeRow (pmap : List (Nat × String)) (mmap : List (String × ℚ))
    (entry : TimeEntry) : ReportRow :=
  let dateStr := isoDate entry.startTime
  let mileageKey := mkKey entry.projectId dateStr
  { date := dateStr
  , project := jsStrOr (pmap.lookup entry.projectId) "Unknown"
  , timeIn := localeTime entry.startTime
  , timeOut := localeTime entry.endTime
  , totalTime := toFixed2 entry.duration
  , mileage := jsNumOr (mmap.lookup mileageKey) (.str "0.00")
  , projectNotes := (entry.notes).getD "" }

/-- The row the `csvData` map callback builds for one time entry, with
the project map and mileage object the surrounding closure provides. -/
def rowOf (store : Store) (now : Nat) : TimeEntry → ReportRow :=
  makeRow (projectMapOf store.projects)
    (mileageByProjectDate (windowMileageEntries store now))

/-- The `csvData` array (lines 83-98): one row per fetched time entry, in
query order. -/
def csvData (store : Store) (now : Nat) : List ReportRow :=
  (windowTimeEntries store now).map (rowOf store now)

/-- The CSV header line (lines 100-110, 112). -/
def headerString : String :=
  "Date,Project,Time In,Time Out,Total Time (hours),Mileage (miles),Project Notes\n"

/-- Standard CSV field escaping as `csv-writer` applies it: quote a field
containing the delimiter, a quote or a line break, doubling embedded
quotes. -/
def csvField (s : String) : String :=
  if s.data.any (fun c => c = ',' || c = '"' || c = '\n' || c = '\r') then
    "\"" ++ ⟨s.data.flatMap (fun c => if c = '"' then [ '"', '"' ] else [c])⟩ ++ "\""
  else s

/-- The cells of one CSV record, in header order. -/
def rowFields (r : ReportRow) : List String :=
  [r.date, r.project, r.timeIn, r.timeOut, r.totalTime, r.mileage.render, r.projectNotes]

/-- `csvStringifier.stringifyRecords` (line 112): each record's escaped
fields joined by commas, one line per record. -/
def stringifyRecords (rows : List ReportRow) : String :=
  String.join (rows.map (fun r => String.intercalate "," ((rowFields r).map csvField) ++ "\n"))

/-- Model of `generateWeeklyCSV` (lines 49-120): the resolved object with
the CSV text, the entry count and the two formatted totals, the totals
summing the rows' stringly values back through `parseFloat`. -/
def generateWeeklyCSV (store : Store) (now : Nat) : Report :=
  let rows := csvData store now
  { csvContent := headerString ++ stringifyRecords rows
  , entryCount := rows.length
  , totalHours := toFixed2 (rows.foldl (fun sum e => sum + parseFloatS e.totalTime) 0)
  , totalMiles := toFixed2 (rows.foldl (fun sum e => sum + parseFloatV e.mileage) 0) }

/-! ### Email task and HTTP layer (server.js lines 122-312)

`sendWeeklyEmail` awaits the aggregation, posts to the Resend API and
throws when the response is not OK — but its whole body sits inside a
`try/catch` whose handler only logs, so the returned promise always
resolves. The outcomes of the awaited external steps (the store reads
backing `generateWeeklyCSV`, and the `fetch` call) are passed in
explicitly, successful or failed. -/

/-- Outcome of the Resend `fetch` call: `ok` is `response.ok`, `body` the
response text. -/
structure FetchResponse where
  ok : Bool
  body : String
deriving DecidableEq

/-- The body of `sendWeeklyEmail`'s `try` block (lines 125-176): generate
the report, send it, and throw a `Resend API error` when the delivery
response is not OK. An `Except.error` input models the corresponding
awaited promise rejecting. -/
def runEmailPipeline (agg : Except String Report)
    (send : Report → Except String FetchResponse) : Except String Unit :=
  match agg with
  | .error e => .error e
  | .ok report =>
      match send report with
      | .error e => .error e
      | .ok response =>
          if response.ok then .ok ()
          else .error ("Resend API error: " ++ response.body)

/-- Model of `sendWeeklyEmail` (lines 123-180): the `catch` block (lines
177-179) logs the error and returns normally, so every pipeline failure is
swallowed and the function always resolves successfully. -/
def sendWeeklyEmail (agg : Except String Report)
    (send : Report → Except String FetchResponse) : Except String Unit :=
  match runEmailPipeline agg send with
  | .error _ => .ok ()
  | .ok _ => .ok ()

/-- Model of the cron callback (lines 182-187): a scheduled firing just
invokes `sendWeeklyEmail`; its result says whether the scheduler's
callback completed without an escaping exception. -/
def scheduledFiring (agg : Except String Report)
    (send : Report → Except String FetchResponse) : Except String Unit :=
  sendWeeklyEmail agg send

/-- A minimal JSON value model for the endpoint responses. -/
inductive Json where
  | str (s : String)
  | num (q : ℚ)
  | bool (b : Bool)
  | obj (fields : List (String × Json))
  | arr (elems : List Json)

/-- An HTTP response: status code and JSON body. -/
structure HttpResponse where
  status : Nat
  body : Json

/-- The uniform failure response every `catch` block produces:
`res.status(500).json({ error: error.message })`. -/
def errorResponse (msg : String) : HttpResponse :=
  ⟨500, .obj [("error", .str msg)]⟩

/-- Model of the `POST /api/test-email` handler (lines 301-308): await
`sendWeeklyEmail`, answer `{success, message}` on resolution and the
500 error response had it rejected. -/
def testEmailHandler (agg : Except String Report)
    (send : Report → Except String FetchResponse) : HttpResponse :=
  match sendWeeklyEmail agg send with
  | .ok _ => ⟨200, .obj [("success", .bool true), ("message", .str "Test email sent!")]⟩
  | .error msg => errorResponse msg

/-- The HTTP endpoints whose handlers wrap their store operations in a
`try/catch` (lines 190-308). `GET /api/health` (lines 310-312) has no
failure path and is modelled separately. -/
inductive Endpoint where
  | getProjects | postProjects | putProject | deleteProject
  | getTimeEntries | postTimeEntries | putTimeEntry | deleteTimeEntry
  | getMileageEntries | postMileageEntries | putMileageEntry | deleteMileageEntry
  | testEmail
deriving DecidableEq

/-- The JSON each handler answers with on success, given the payload its
awaited operation produced (the listed/created/updated record(s); the
delete handlers answer `{success: true}`, the test-email handler its
fixed message). -/
def successBody : Endpoint → Json → Json
  | .deleteProject, _ => .obj [("success", .bool true)]
  | .deleteTimeEntry, _ => .obj [("success", .bool true)]
  | .deleteMileageEntry, _ => .obj [("success", .bool true)]
  | .testEmail, _ => .obj [("success", .bool true), ("message", .str "Test email sent!")]
  | _, payload => payload

/-- The shared handler skeleton (every route in lines 190-308): run the
handler body's awaited operation; answer its payload with status 200, or
`res.status(500).json({error: message})` when it throws. -/
def handle (ep : Endpoint) (outcome : Except String Json) : HttpResponse :=
  match outcome with
  | .ok payload => ⟨200, successBody ep payload⟩
  | .error msg => errorResponse msg

/-- The `GET /api/health` handler (lines 310-312): always status 200 with
an ok status and the current timestamp. -/
def healthHandler (nowIso : String) : HttpResponse :=
  ⟨200, .obj [("status", .str "ok"), ("timestamp", .str nowIso)]⟩

/-! ### Helper lemmas: folds and sums -/

lemma foldl_add_map {α : Type} (f : α → ℚ) (l : List α) :
    ∀ a : ℚ, l.foldl (fun s x => s + f x) a = a + (l.map f).sum := by
  induction l with
  | nil => intro a; simp
  | cons x xs ih => intro a; simp [List.foldl_cons, ih, add_assoc]

/-! ### Helper lemmas: association lists modelling JS objects -/

lemma lookup_cons {α β : Type} [BEq α] (a k : α) (b : β) (es : List (α × β)) :
    List.lookup a ((k, b) :: es) = if a == k then some b else List.lookup a es := by
  cases h : a == k <;> simp [List.lookup, h]

lemma lookup_setKey_self {α β : Type} [BEq α] [LawfulBEq α]
    (l : List (α × β)) (k : α) (v : β) : (setKey l k v).lookup k = some v := by
  induction l with
  | nil => simp [setKey, lookup_cons]
  | cons kv rest ih =>
      obtain ⟨k', v'⟩ := kv
      by_cases h : k' = k
      · subst h; simp [setKey, lookup_cons]
      · have hb : (k' == k) = false := beq_eq_false_iff_ne.mpr h
        have hb' : (k == k') = false := beq_eq_false_iff_ne.mpr (Ne.symm h)
        simp [setKey, hb, lookup_cons, hb', ih]

lemma lookup_setKey_ne {α β : Type} [BEq α] [LawfulBEq α]
    (l : List (α × β)) (k k' : α) (v : β) (h : k' ≠ k) :
    (setKey l k v).lookup k' = l.lookup k' := by
  induction l with
  | nil => simp [setKey, lookup_cons, beq_eq_false_iff_ne.mpr h]
  | cons kv rest ih =>
      obtain ⟨k₀, v₀⟩ := kv
      by_cases h0 : k₀ = k
      · subst h0
        simp [setKey, lookup_cons, beq_eq_false_iff_ne.mpr h]
      · simp [setKey, beq_eq_false_iff_ne.mpr h0, lookup_cons, ih]

/-- The key predicate used to group mileage entries. -/
def hitsKey (key : String) (me : MileageEntry) : Bool :=
  mkKey me.projectId me.date == key

/-- Sum of the miles of the window's mileage entries grouped under `key`. -/
def milesForKey (mes : List MileageEntry) (key : String) : ℚ :=
  ((mes.filter (hitsKey key)).map MileageEntry.miles).sum

lemma lookup_foldl_addMileage (mes : List MileageEntry) (key : String) :
    ∀ acc : List (String × ℚ),
      (mes.foldl addMileage acc).lookup key =
        if mes.any (hitsKey key)
        then some (((acc.lookup key).getD 0) + milesForKey mes key)
        else acc.lookup key := by
  induction mes with
  | nil => intro acc; simp [milesForKey]
  | cons me rest ih =>
      intro acc
      by_cases h : hitsKey key me
      · have hk : mkKey me.projectId me.date = key := by
          simpa [hitsKey] using h
        have hsum : milesForKey (me :: rest) key = me.miles + milesForKey rest key := by
          simp [milesForKey, List.filter_cons, h]
        have hacc : (addMileage acc me).lookup key
            = some (((acc.lookup key).getD 0) + me.miles) := by
          simp [addMileage, hk, lookup_setKey_self]
        rw [List.foldl_cons, ih, hacc]
        by_cases hany : rest.any (hitsKey key)
        · simp only [List.any_cons, h, Bool.true_or, if_true, hany, if_true,
            Option.getD_some, hsum]
          ring_nf
        · have : milesForKey rest key = 0 := by
            have : rest.filter (hitsKey key) = [] := by
              rw [List.filter_eq_nil_iff]
              intro a ha
              have := (List.any_eq_true (p := hitsKey key) (l := rest)).not.mp
                (by simp [hany])
              push_neg at this
              simpa using this a ha
            simp [milesForKey, this]
          simp [hany, List.any_cons, h, hsum, this]
      · have hk : mkKey me.projectId me.date ≠ key := by
          simpa [hitsKey] using h
        have hacc : (addMileage acc me).lookup key = acc.lookup key :=
          lookup_setKey_ne _ _ _ _ (Ne.symm hk)
        have hsum : milesForKey (me :: rest) key = milesForKey rest key := by
          simp [milesForKey, List.filter_cons, h]
        rw [List.foldl_cons, ih, hacc, hsum]
        simp [List.any_cons, h]

/-- The mileage object's lookup is exactly: absent when no window entry
carries the key, and the grouped sum of miles otherwise. -/
lemma lookup_mileageByProjectDate (mes : List MileageEntry) (key : String) :
    (mileageByProjectDate mes).lookup key =
      if mes.any (hitsKey key) then some (milesForKey mes key) else none := by
  rw [mileageByProjectDate, lookup_foldl_addMileage]
  simp

lemma lookup_projectMapOf_none (ps : List Project) (pid : Nat)
    (h : ∀ p ∈ ps, p.id ≠ pid) : (projectMapOf ps).lookup pid = none := by
  suffices h' : ∀ acc : List (Nat × String), acc.lookup pid = none →
      (ps.foldl (fun acc p => setKey acc p.id p.name) acc).lookup pid = none by
    exact h' [] (by simp [List.lookup])
  induction ps with
  | nil => intro acc hacc; simpa using hacc
  | cons p rest ih =>
      intro acc hacc
      rw [List.foldl_cons]
      refine ih (fun q hq => h q (List.mem_cons_of_mem _ hq)) _ ?_
      rw [lookup_setKey_ne _ _ _ _ (Ne.symm (h p (List.mem_cons_self _ _)))]
      exact hacc

/-! ### Helper lemmas: window queries -/

lemma mem_windowTimeEntries {store : Store} {now : Nat} {e : TimeEntry} :
    e ∈ windowTimeEntries store now ↔
      e ∈ store.timeEntries ∧ windowStart now ≤ e.startTime := by
  rw [windowTimeEntries, (List.perm_insertionSort startLE _).mem_iff, List.mem_filter]
  simp

lemma mem_windowMileageEntries {store : Store} {now : Nat} {me : MileageEntry} :
    me ∈ windowMileageEntries store now ↔
      me ∈ store.mileageEntries ∧ strLe (windowDateStr now) me.date = true := by
  rw [windowMileageEntries, List.mem_filter]

/-! ### Helper lemmas: decimal digit rendering -/

lemma charDigit_digitChar {d : Nat} (h : d < 10) : charDigit (digitChar d) = d := by
  interval_cases d <;> decide

lemma isDigitChar_digitChar {d : Nat} (h : d < 10) : isDigitChar (digitChar d) = true := by
  interval_cases d <;> decide

lemma digitsVal_append_singleton (l : List Nat) (d : Nat) :
    digitsVal (l ++ [d]) = 10 * digitsVal l + d := by
  simp [digitsVal, List.foldl_append]

lemma natToDigitsAux_spec : ∀ fuel n : Nat, n < fuel →
    (∀ d ∈ natToDigitsAux fuel n, d < 10) ∧
      digitsVal (natToDigitsAux fuel n) = n ∧ natToDigitsAux fuel n ≠ [] := by
  intro fuel
  induction fuel with
  | zero => intro n h; omega
  | succ fuel ih =>
      intro n h
      by_cases h10 : n < 10
      · refine ⟨?_, ?_, ?_⟩ <;> simp [natToDigitsAux, h10, digitsVal]
      · have hdiv : n / 10 < fuel :=
          lt_of_lt_of_le (Nat.div_lt_self (by omega) (by omega)) (by omega)
        obtain ⟨hd, hv, hne⟩ := ih (n / 10) hdiv
        refine ⟨?_, ?_, ?_⟩
        · intro d hdmem
          rw [natToDigitsAux] at hdmem
          rw [if_neg h10] at hdmem
          rcases List.mem_append.mp hdmem with hmem | hmem
          · exact hd d hmem
          · have : d = n % 10 := by simpa using hmem
            subst this
            exact Nat.mod_lt _ (by omega)
        · rw [natToDigitsAux, if_neg h10, digitsVal_append_singleton, hv]
          omega
        · rw [natToDigitsAux, if_neg h10]
          simp

lemma natToDigits_lt (n : Nat) : ∀ d ∈ natToDigits n, d < 10 :=
  (natToDigitsAux_spec (n + 1) n (Nat.lt_succ_self n)).1

lemma digitsVal_natToDigits (n : Nat) : digitsVal (natToDigits n) = n :=
  (natToDigitsAux_spec (n + 1) n (Nat.lt_succ_self n)).2.1

lemma natToDigits_ne_nil (n : Nat) : natToDigits n ≠ [] :=
  (natToDigitsAux_spec (n + 1) n (Nat.lt_succ_self n)).2.2

lemma all_digit_natToChars (n : Nat) : ∀ c ∈ natToChars n, isDigitChar c = true := by
  intro c hc
  rw [natToChars] at hc
  obtain ⟨d, hd, rfl⟩ := List.mem_map.mp hc
  exact isDigitChar_digitChar (natToDigits_lt n d hd)

lemma digitsToNat_natToChars (n : Nat) : digitsToNat (natToChars n) = n := by
  rw [natToChars, digitsToNat, List.foldl_map]
  calc (natToDigits n).foldl (fun a d => 10 * a + charDigit (digitChar d)) 0
      = (natToDigits n).foldl (fun a d => 10 * a + d) 0 :=
        List.foldl_ext _ _ _ (fun a d hd => by rw [charDigit_digitChar (natToDigits_lt n d hd)])
    _ = n := digitsVal_natToDigits n

lemma natToChars_ne_nil (n : Nat) : natToChars n ≠ [] := by
  rw [natToChars]
  simpa using natToDigits_ne_nil n

lemma natToChars_injective {a b : Nat} (h : natToChars a = natToChars b) : a = b := by
  have ha := digitsToNat_natToChars a
  rw [h, digitsToNat_natToChars] at ha
  omega

lemma natToDigitsAux_lt10 {fuel n : Nat} (hf : 0 < fuel) (h : n < 10) :
    natToDigitsAux fuel n = [n] := by
  cases fuel with
  | zero => omega
  | succ f => simp [natToDigitsAux, h]

lemma natToDigits_lt10 {n : Nat} (h : n < 10) : natToDigits n = [n] :=
  natToDigitsAux_lt10 (Nat.succ_pos n) h

lemma natToDigits_two {n : Nat} (h1 : 10 ≤ n) (h2 : n < 100) :
    natToDigits n = [n / 10, n % 10] := by
  rw [natToDigits, natToDigitsAux, if_neg (by omega),
    natToDigitsAux_lt10 (by omega) (by omega)]
  rfl

lemma pad2_spec {b : Nat} (h : b < 100) :
    (∀ c ∈ pad2 b, isDigitChar c = true) ∧ digitsToNat (pad2 b) = b ∧ (pad2 b).length = 2 := by
  by_cases h10 : b < 10
  · rw [pad2, if_pos h10, natToChars, natToDigits_lt10 h10]
    refine ⟨?_, ?_, rfl⟩
    · intro c hc
      rcases List.mem_cons.mp hc with rfl | hc
      · decide
      · have : c = digitChar b := by simpa using hc
        subst this
        exact isDigitChar_digitChar h10
    · simp [digitsToNat, charDigit_digitChar h10]
      decide
  · rw [pad2, if_neg h10, natToChars, natToDigits_two (by omega) h]
    refine ⟨?_, ?_, rfl⟩
    · intro c hc
      rcases List.mem_cons.mp hc with rfl | hc
      · exact isDigitChar_digitChar (by omega)
      · have : c = digitChar (b % 10) := by simpa using hc
        subst this
        exact isDigitChar_digitChar (by omega)
    · simp [digitsToNat, charDigit_digitChar (show b / 10 < 10 by omega),
        charDigit_digitChar (show b % 10 < 10 by omega)]
      omega

/-! ### Helper lemmas: parseFloat inverts the decimal rendering -/

lemma takeWhile_append_stop {p : Char → Bool} (l : List Char) (x : Char) (t : List Char)
    (h1 : ∀ c ∈ l, p c = true) (h2 : p x = false) :
    (l ++ x :: t).takeWhile p = l ∧ (l ++ x :: t).dropWhile p = x :: t := by
  induction l with
  | nil => simp [List.takeWhile_cons, List.dropWhile_cons, h2]
  | cons c cs ih =>
      have hc : p c = true := h1 c (List.mem_cons_self _ _)
      obtain ⟨ht, hd⟩ := ih (fun a ha => h1 a (List.mem_cons_of_mem _ ha))
      constructor
      · simpa [List.takeWhile_cons, hc] using ht
      · simpa [List.dropWhile_cons, hc] using hd

lemma parseUnsignedChars_intfrac (a b : Nat) (hb : b < 100) :
    parseUnsignedChars (natToChars a ++ '.' :: pad2 b) = (a : ℚ) + (b : ℚ) / 100 := by
  obtain ⟨hdig, hval, hlen⟩ := pad2_spec hb
  obtain ⟨htake, hdrop⟩ := takeWhile_append_stop (natToChars a) '.' (pad2 b)
    (all_digit_natToChars a) (by decide)
  rw [parseUnsignedChars]
  simp only [htake, hdrop]
  rw [List.takeWhile_eq_self_iff.mpr hdig, digitsToNat_natToChars, hval, hlen]
  norm_num

lemma parseFloatChars_of_digit_head (cs : List Char)
    (h : ∀ c, cs.head? = some c → isDigitChar c = true) :
    parseFloatChars cs = parseUnsignedChars cs := by
  rw [parseFloatChars, if_neg]
  intro hcontra
  exact absurd (h '-' hcontra) (by decide)

lemma head_digit_centiBody (a b : Nat) :
    ∀ c, (natToChars a ++ '.' :: pad2 b).head? = some c → isDigitChar c = true := by
  intro c hc
  cases hnc : natToChars a with
  | nil => exact absurd hnc (natToChars_ne_nil a)
  | cons c0 t =>
      rw [hnc] at hc
      simp at hc
      subst hc
      exact all_digit_natToChars a c0 (by rw [hnc]; exact List.mem_cons_self _ _)

lemma parseFloatS_toFixed2 (q : ℚ) : parseFloatS (toFixed2 q) = round2 q := by
  rw [toFixed2, parseFloatS, round2]
  set n : ℤ := round (q * 100) with hn
  set m : Nat := n.natAbs with hm
  have hmod : m % 100 < 100 := Nat.mod_lt _ (by norm_num)
  have hdm : (100 : ℚ) * ((m / 100 : ℕ) : ℚ) + ((m % 100 : ℕ) : ℚ) = (m : ℚ) := by
    exact_mod_cast congrArg (fun k : ℕ => (k : ℚ)) (Nat.div_add_mod m 100)
  have hbody : parseUnsignedChars (natToChars (m / 100) ++ '.' :: pad2 (m % 100))
      = (m : ℚ) / 100 := by
    rw [parseUnsignedChars_intfrac _ _ hmod]
    field_simp
    linarith [hdm]
  by_cases hneg : n < 0
  · rw [if_pos hneg]
    have habs : (m : ℚ) = -(n : ℚ) := by
      rw [hm]
      push_cast [Int.cast_natAbs]
      rw [abs_of_neg (by exact_mod_cast hneg)]
    show parseFloatChars ('-' :: (natToChars (m / 100) ++ '.' :: pad2 (m % 100)))
      = (n : ℚ) / 100
    rw [parseFloatChars]
    simp only [List.head?_cons, List.tail_cons, if_true]
    rw [hbody, habs]
    ring
  · rw [if_neg hneg]
    have habs : (m : ℚ) = (n : ℚ) := by
      rw [hm]
      push_cast [Int.cast_natAbs]
      rw [abs_of_nonneg (by exact_mod_cast (not_lt.mp hneg))]
    show parseFloatChars (natToChars (m / 100) ++ '.' :: pad2 (m % 100)) = (n : ℚ) / 100
    rw [parseFloatChars_of_digit_head _ (head_digit_centiBody _ _), hbody, habs]

/-! ### Helper lemmas: the mileage key is injective

The grouping key `` `${projectId}_${date}` `` concatenates a decimal
integer, an underscore (never a digit) and the date string, so two keys
are equal exactly when the (projectId, date) pairs are. -/

lemma digits_sep_inj : ∀ xs ys s t : List Char,
    (∀ c ∈ xs, isDigitChar c = true) → (∀ c ∈ ys, isDigitChar c = true) →
    xs ++ '_' :: s = ys ++ '_' :: t → xs = ys ∧ s = t := by
  intro xs
  induction xs with
  | nil =>
      intro ys s t _ hys h
      cases ys with
      | nil => simpa using h
      | cons y ys' =>
          exfalso
          have hy : y = '_' := by
            have := congrArg (fun l => l.head?) h
            simpa using this.symm
          have := hys y (List.mem_cons_self _ _)
          rw [hy] at this
          exact absurd this (by decide)
  | cons x xs' ih =>
      intro ys s t hxs hys h
      cases ys with
      | nil =>
          exfalso
          have hx : x = '_' := by
            have := congrArg (fun l => l.head?) h
            simpa using this
          have := hxs x (List.mem_cons_self _ _)
          rw [hx] at this
          exact absurd this (by decide)
      | cons y ys' =>
          have hxy : x = y ∧ xs' ++ '_' :: s = ys' ++ '_' :: t := by
            simpa using h
          obtain ⟨rfl, htail⟩ := hxy
          obtain ⟨h1, h2⟩ := ih ys' s t
            (fun c hc => hxs c (List.mem_cons_of_mem _ hc))
            (fun c hc => hys c (List.mem_cons_of_mem _ hc)) htail
          exact ⟨by rw [h1], h2⟩

lemma data_mkKey (pid : Nat) (d : String) :
    (mkKey pid d).data = natToChars pid ++ '_' :: d.data := by
  show ((⟨natToChars pid⟩ : String) ++ "_" ++ d).data = _
  rw [String.data_append, String.data_append]
  simp

lemma mkKey_inj {p p' : Nat} {d d' : String} (h : mkKey p d = mkKey p' d') :
    p = p' ∧ d = d' := by
  have hdata := congrArg String.data h
  rw [data_mkKey, data_mkKey] at hdata
  obtain ⟨h1, h2⟩ := digits_sep_inj _ _ _ _
    (all_digit_natToChars p) (all_digit_natToChars p') hdata
  exact ⟨natToChars_injective h1, String.ext h2⟩

lemma hitsKey_eq_pair (pid : Nat) (d : String) (me : MileageEntry) :
    hitsKey (mkKey pid d) me = (me.projectId == pid && me.date == d) := by
  by_cases h1 : me.projectId = pid
  · by_cases h2 : me.date = d
    · simp [hitsKey, h1, h2]
    · have hne : mkKey me.projectId me.date ≠ mkKey pid d := fun hk => h2 (mkKey_inj hk).2
      simp [hitsKey, beq_eq_false_iff_ne.mpr hne, beq_eq_false_iff_ne.mpr h2]
  · have hne : mkKey me.projectId me.date ≠ mkKey pid d := fun hk => h1 (mkKey_inj hk).1
    simp [hitsKey, beq_eq_false_iff_ne.mpr hne, beq_eq_false_iff_ne.mpr h1]

lemma milesForKey_eq_pair_sum (mes : List MileageEntry) (pid : Nat) (d : String) :
    milesForKey mes (mkKey pid d) =
      ((mes.filter (fun me => me.projectId == pid && me.date == d)).map
        MileageEntry.miles).sum := by
  rw [milesForKey]
  congr 1
  congr 1
  exact List.filter_congr fun me _ => hitsKey_eq_pair pid d me

lemma anyCongr {α : Type} (p q : α → Bool) (l : List α) (h : ∀ a ∈ l, p a = q a) :
    l.any p = l.any q := by
  induction l with
  | nil => rfl
  | cons x xs ih =>
      simp only [List.any_cons, h x (List.mem_cons_self _ _),
        ih fun a ha => h a (List.mem_cons_of_mem _ ha)]

lemma any_hitsKey_eq_pair (mes : List MileageEntry) (pid : Nat) (d : String) :
    mes.any (hitsKey (mkKey pid d)) =
      mes.any (fun me => me.projectId == pid && me.date == d) :=
  anyCongr _ _ _ fun me _ => hitsKey_eq_pair pid d me

/-! ### Helper lemmas: report rows and totals -/

lemma rowOf_mileage (store : Store) (now : Nat) (entry : TimeEntry) :
    (rowOf store now entry).mileage =
      jsNumOr
        (if (windowMileageEntries store now).any
              (hitsKey (mkKey entry.projectId (isoDate entry.startTime)))
         then some (milesForKey (windowMileageEntries store now)
                (mkKey entry.projectId (isoDate entry.startTime)))
         else none)
        (.str "0.00") := by
  show jsNumOr ((mileageByProjectDate (windowMileageEntries store now)).lookup
      (mkKey entry.projectId (isoDate entry.startTime))) (.str "0.00") = _
  rw [lookup_mileageByProjectDate]

lemma rowOf_project (store : Store) (now : Nat) (entry : TimeEntry) :
    (rowOf store now entry).project =
      jsStrOr ((projectMapOf store.projects).lookup entry.projectId) "Unknown" := rfl

lemma rowOf_totalTime (store : Store) (now : Nat) (entry : TimeEntry) :
    (rowOf store now entry).totalTime = toFixed2 entry.duration := rfl

lemma totalHours_eq_sum (store : Store) (now : Nat) :
    (generateWeeklyCSV store now).totalHours =
      toFixed2 (((csvData store now).map (fun r => parseFloatS r.totalTime)).sum) := by
  show toFixed2 ((csvData store now).foldl (fun sum e => sum + parseFloatS e.totalTime) 0) = _
  rw [foldl_add_map, zero_add]

lemma totalMiles_eq_sum (store : Store) (now : Nat) :
    (generateWeeklyCSV store now).totalMiles =
      toFixed2 (((csvData store now).map (fun r => parseFloatV r.mileage)).sum) := by
  show toFixed2 ((csvData store now).foldl (fun sum e => sum + parseFloatV e.mileage) 0) = _
  rw [foldl_add_map, zero_add]

/-- Evaluation form of `toFixed2` once the rounded centi-value is known. -/
lemma toFixed2_of_round (q : ℚ) (z : ℤ) (hz : 0 ≤ z) (h : round (q * 100) = z) :
    toFixed2 q = ⟨natToChars (z.toNat / 100) ++ '.' :: pad2 (z.toNat % 100)⟩ := by
  rw [toFixed2, h, if_neg (not_lt.mpr hz)]
  have : z.natAbs = z.toNat := by omega
  rw [this]

lemma toFixed2_zero : toFixed2 0 = "0.00" := by
  rw [toFixed2_of_round 0 0 le_rfl (by norm_num)]
  decide

lemma parseFloatS_zero_str : parseFloatS "0.00" = 0 := by
  have h := parseFloatS_toFixed2 0
  rw [toFixed2_zero] at h
  rw [h, round2]
  norm_num

/-! ## The claims -/

/-- C1: the claim says a pipeline failure during `POST /api/test-email` is
surfaced to the HTTP caller as an error response. The code contradicts it:
`sendWeeklyEmail` wraps its whole body in a `try/catch` that only logs, so
it always resolves, the handler's own 500 branch is unreachable, and the
caller receives `200 {success: true, message: 'Test email sent!'}` even
when aggregation and delivery both fail. (The scheduled-firing half of the
claim — failures caught, scheduler not crashed — does hold, as the first
conjunct shows.) -/
theorem c1_manual_trigger_always_succeeds :
    (∀ (agg : Except String Report) (send : Report → Except String FetchResponse),
        sendWeeklyEmail agg send = .ok ())
      ∧ (∀ (agg : Except String Report) (send : Report → Except String FetchResponse),
          testEmailHandler agg send
            = ⟨200, .obj [("success", .bool true), ("message", .str "Test email sent!")]⟩)
      ∧ testEmailHandler (.error "StoreUnavailable") (fun _ => .error "network unreachable")
          = ⟨200, .obj [("success", .bool true), ("message", .str "Test email sent!")]⟩ := by
  have hswallow : ∀ (agg : Except String Report)
      (send : Report → Except String FetchResponse), sendWeeklyEmail agg send = .ok () := by
    intro agg send
    rw [sendWeeklyEmail]
    cases runEmailPipeline agg send <;> rfl
  refine ⟨hswallow, ?_, ?_⟩
  · intro agg send
    rw [testEmailHandler, hswallow]
  · rw [testEmailHandler, hswallow]

/-- C4: the aggregator produces exactly one report row per time entry in
the window (window membership as implemented: start timestamp ≥
windowStart), and the entry sequence underlying the rows — a permutation of
the window's entries — is sorted ascending by start timestamp, each row
being the image of its entry in that order. -/
theorem c4_one_row_per_entry_sorted (store : Store) (now : Nat) :
    (csvData store now).length
        = (store.timeEntries.filter fun e => decide (windowStart now ≤ e.startTime)).length
      ∧ List.Sorted startLE (windowTimeEntries store now)
      ∧ csvData store now = (windowTimeEntries store now).map (rowOf store now)
      ∧ (windowTimeEntries store now).Perm
          (store.timeEntries.filter fun e => decide (windowStart now ≤ e.startTime)) := by
  refine ⟨?_, List.sorted_insertionSort startLE _, rfl, List.perm_insertionSort startLE _⟩
  rw [csvData, List.length_map, windowTimeEntries, List.length_insertionSort]

/-- C5: a time entry whose projectId matches no stored project yields a
row whose project label is the sentinel "Unknown", and that row is still
produced (report generation, a total function here, does not fail). -/
theorem c5_unknown_project_label (store : Store) (now : Nat) (entry : TimeEntry)
    (h1 : entry ∈ store.timeEntries) (h2 : windowStart now ≤ entry.startTime)
    (h3 : ∀ p ∈ store.projects, p.id ≠ entry.projectId) :
    (rowOf store now entry).project = "Unknown"
      ∧ rowOf store now entry ∈ csvData store now := by
  constructor
  · rw [rowOf_project, lookup_projectMapOf_none _ _ h3]
    rfl
  · exact List.mem_map_of_mem _ (mem_windowTimeEntries.mpr ⟨h1, h2⟩)

/-- Scenario store for the C5 witness: one project with id 2, one time
entry referencing the nonexistent project 1. -/
def storeC5 : Store :=
  { projects := [⟨2, "Deck Build"⟩]
  , timeEntries := [⟨10, 1, 20000 * msPerDay + 8 * msPerHour,
      20000 * msPerDay + 17 * msPerHour, 9, none⟩]
  , mileageEntries := [] }

/-- Clock instant for the C5 witness. -/
def nowC5 : Nat := 20001 * msPerDay

/-- Witness for C5 at a concrete store. -/
theorem c5_unknown_project_label_witness :
    (storeC5.timeEntries.get ⟨0, by decide⟩ ∈ storeC5.timeEntries
        ∧ windowStart nowC5 ≤ (storeC5.timeEntries.get ⟨0, by decide⟩).startTime
        ∧ ∀ p ∈ storeC5.projects, p.id ≠ (storeC5.timeEntries.get ⟨0, by decide⟩).projectId)
      ∧ (rowOf storeC5 nowC5 (storeC5.timeEntries.get ⟨0, by decide⟩)).project = "Unknown"
      ∧ rowOf storeC5 nowC5 (storeC5.timeEntries.get ⟨0, by decide⟩)
          ∈ csvData storeC5 nowC5 := by
  refine ⟨⟨by decide, by decide, by decide⟩, ?_, ?_⟩
  · exact (c5_unknown_project_label storeC5 nowC5 _ (by decide) (by decide) (by decide)).1
  · exact (c5_unknown_project_label storeC5 nowC5 _ (by decide) (by decide) (by decide)).2

/-- C6: an empty report window — no stored time entry passes the window
filter — yields a header-only CSV, entry count 0, total hours "0.00" and
total miles "0.00". -/
theorem c6_empty_window_report (store : Store) (now : Nat)
    (h : store.timeEntries.filter (fun e => decide (windowStart now ≤ e.startTime)) = []) :
    (generateWeeklyCSV store now).csvContent = headerString
      ∧ (generateWeeklyCSV store now).entryCount = 0
      ∧ (generateWeeklyCSV store now).totalHours = "0.00"
      ∧ (generateWeeklyCSV store now).totalMiles = "0.00" := by
  have hw : windowTimeEntries store now = [] := by
    rw [windowTimeEntries, h]
    rfl
  have hcsv : csvData store now = [] := by
    rw [csvData, hw]
    rfl
  refine ⟨?_, ?_, ?_, ?_⟩
  · show headerString ++ stringifyRecords (csvData store now) = headerString
    rw [hcsv]
    exact String.append_empty _
  · show (csvData store now).length = 0
    rw [hcsv]
    rfl
  · show toFixed2 ((csvData store now).foldl
        (fun sum e => sum + parseFloatS e.totalTime) 0) = "0.00"
    rw [hcsv]
    exact toFixed2_zero
  · show toFixed2 ((csvData store now).foldl
        (fun sum e => sum + parseFloatV e.mileage) 0) = "0.00"
    rw [hcsv]
    exact toFixed2_zero

/-- Scenario store for the C6 witness: a stale time entry (before the
window) and a mileage entry; the window itself holds no time entry. -/
def storeC6 : Store :=
  { projects := [⟨1, "Deck Build"⟩]
  , timeEntries := [⟨10, 1, 19000 * msPerDay, 19000 * msPerDay + msPerHour, 1, none⟩]
  , mileageEntries := [⟨20, 1, 3, "2024-10-04", none⟩] }

/-- Clock instant for the C6 witness. -/
def nowC6 : Nat := 20001 * msPerDay

/-- Witness for C6 at a concrete store. -/
theorem c6_empty_window_report_witness :
    (storeC6.timeEntries.filter (fun e => decide (windowStart nowC6 ≤ e.startTime)) = [])
      ∧ (generateWeeklyCSV storeC6 nowC6).csvContent = headerString
      ∧ (generateWeeklyCSV storeC6 nowC6).entryCount = 0
      ∧ (generateWeeklyCSV storeC6 nowC6).totalHours = "0.00"
      ∧ (generateWeeklyCSV storeC6 nowC6).totalMiles = "0.00" := by
  refine ⟨by decide, ?_⟩
  exact c6_empty_window_report storeC6 nowC6 (by decide)

/-- C8: the record queries apply only a lower bound — a time entry is
fetched exactly when its start timestamp is ≥ windowStart and a mileage
entry exactly when its date string is ≥ the window's date (TEXT order); in
particular an entry starting at or after `now` itself, past the intended
7-day window's upper end, is still included. -/
theorem c8_no_upper_bound (store : Store) (now : Nat) :
    (∀ e : TimeEntry, e ∈ windowTimeEntries store now ↔
        e ∈ store.timeEntries ∧ windowStart now ≤ e.startTime)
      ∧ (∀ me : MileageEntry, me ∈ windowMileageEntries store now ↔
          me ∈ store.mileageEntries ∧ strLe (windowDateStr now) me.date = true)
      ∧ (∀ e : TimeEntry, e ∈ store.timeEntries → now ≤ e.startTime →
          e ∈ windowTimeEntries store now) := by
  refine ⟨fun _ => mem_windowTimeEntries, fun _ => mem_windowMileageEntries, ?_⟩
  intro e he hnow
  exact mem_windowTimeEntries.mpr ⟨he, le_trans (Nat.sub_le _ _) hnow⟩

/-- Scenario store for the C8 witness: a single time entry starting a full
day after `now`, beyond the intended window's upper end. -/
def storeC8 : Store :=
  { projects := []
  , timeEntries := [⟨10, 1, 20002 * msPerDay, 20002 * msPerDay + msPerHour, 1, none⟩]
  , mileageEntries := [] }

/-- Clock instant for the C8 witness. -/
def nowC8 : Nat := 20001 * msPerDay

/-- Witness for C8: the future-dated entry is in the fetched window. -/
theorem c8_no_upper_bound_witness :
    nowC8 < (storeC8.timeEntries.get ⟨0, by decide⟩).startTime
      ∧ storeC8.timeEntries.get ⟨0, by decide⟩ ∈ windowTimeEntries storeC8 nowC8 := by
  refine ⟨by decide, ?_⟩
  exact (c8_no_upper_bound storeC8 nowC8).2.2 _ (by decide) (by decide)

/-- C9: every failure of a `try/catch`-wrapped endpoint handler produces
the JSON object `{error: message}` — an error object carrying the failure
message — with HTTP status 500; every handler answers either 200 or 500,
so no other error status differentiates error kinds, and the health
endpoint (which has no failure path) always answers 200. -/
theorem c9_failures_are_500_json :
    (∀ (ep : Endpoint) (msg : String), handle ep (.error msg) = errorResponse msg)
      ∧ (∀ msg : String, (errorResponse msg).status = 500
          ∧ (errorResponse msg).body = .obj [("error", .str msg)])
      ∧ (∀ (ep : Endpoint) (outcome : Except String Json),
          (handle ep outcome).status = 200 ∨ (handle ep outcome).status = 500)
      ∧ (∀ nowIso : String, (healthHandler nowIso).status = 200) := by
  refine ⟨fun ep msg => rfl, fun msg => ⟨rfl, rfl⟩, ?_, fun _ => rfl⟩
  intro ep outcome
  cases outcome with
  | ok payload => exact Or.inl rfl
  | error msg => exact Or.inr rfl

/-- C7: the summary's total hours is the sum over all rows of the row's
formatted two-decimal duration parsed back to a number — equivalently,
each entry's duration rounded to two decimals before summing — with the
final sum formatted to two decimal places. -/
theorem c7_total_hours_rounds_rows (store : Store) (now : Nat) :
    (generateWeeklyCSV store now).totalHours
        = toFixed2 (((csvData store now).map (fun r => parseFloatS r.totalTime)).sum)
      ∧ (generateWeeklyCSV store now).totalHours
        = toFixed2 (((windowTimeEntries store now).map (fun e => round2 e.duration)).sum) := by
  refine ⟨totalHours_eq_sum store now, ?_⟩
  rw [totalHours_eq_sum store now, csvData, List.map_map]
  congr 2
  apply List.map_congr_left
  intro e _
  show parseFloatS ((rowOf store now e).totalTime) = round2 e.duration
  rw [rowOf_totalTime]
  exact parseFloatS_toFixed2 e.duration

/-- C2: when at least one window mileage entry shares a row's (projectId,
calendar date of start) key, the row's mileage value is the sum of the
miles of ALL window mileage entries sharing that projectId and calendar
date (numerically always; carried as the number itself whenever the sum is
nonzero), and the identical summed figure is attached to every row with
that same project and date — never a single entry's own miles. -/
theorem c2_mileage_is_group_sum (store : Store) (now : Nat) (entry : TimeEntry)
    (h1 : entry ∈ windowTimeEntries store now)
    (h2 : ∃ me ∈ windowMileageEntries store now,
        me.projectId = entry.projectId ∧ me.date = isoDate entry.startTime) :
    parseFloatV ((rowOf store now entry).mileage)
        = (((windowMileageEntries store now).filter
              (fun me => me.projectId == entry.projectId
                && me.date == isoDate entry.startTime)).map MileageEntry.miles).sum
      ∧ ((((windowMileageEntries store now).filter
              (fun me => me.projectId == entry.projectId
                && me.date == isoDate entry.startTime)).map MileageEntry.miles).sum ≠ 0 →
          (rowOf store now entry).mileage
            = .num ((((windowMileageEntries store now).filter
                  (fun me => me.projectId == entry.projectId
                    && me.date == isoDate entry.startTime)).map MileageEntry.miles).sum))
      ∧ (∀ e2 ∈ windowTimeEntries store now,
          e2.projectId = entry.projectId →
          isoDate e2.startTime = isoDate entry.startTime →
          (rowOf store now e2).mileage = (rowOf store now entry).mileage) := by
  have hany : (windowMileageEntries store now).any
      (hitsKey (mkKey entry.projectId (isoDate entry.startTime))) = true := by
    rw [any_hitsKey_eq_pair, List.any_eq_true]
    obtain ⟨me, hmem, hp, hd⟩ := h2
    exact ⟨me, hmem, by simp [hp, hd]⟩
  have hrow : (rowOf store now entry).mileage
      = jsNumOr (some (milesForKey (windowMileageEntries store now)
          (mkKey entry.projectId (isoDate entry.startTime)))) (.str "0.00") := by
    rw [rowOf_mileage, if_pos hany]
  have hmil := milesForKey_eq_pair_sum (windowMileageEntries store now)
    entry.projectId (isoDate entry.startTime)
  refine ⟨?_, ?_, ?_⟩
  · rw [hrow, ← hmil]
    by_cases hz : milesForKey (windowMileageEntries store now)
        (mkKey entry.projectId (isoDate entry.startTime)) = 0
    · rw [hz]
      show parseFloatV (jsNumOr (some 0) (.str "0.00")) = 0
      rw [jsNumOr, if_pos rfl]
      exact parseFloatS_zero_str
    · rw [jsNumOr, if_neg hz]
      rfl
  · intro hnz
    rw [← hmil] at hnz
    rw [hrow, ← hmil, jsNumOr, if_neg hnz]
  · intro e2 _ hp2 hd2
    rw [rowOf_mileage, rowOf_mileage, hp2, hd2]

/-- Scenario store for the C2 witness: one time entry and two same-day
mileage entries (4 and 6 miles) on the same project, so the row must carry
their sum, not either entry's own figure. -/
def storeC2 : Store :=
  { projects := [⟨1, "Deck Build"⟩]
  , timeEntries := [⟨10, 1, 20000 * msPerDay + 8 * msPerHour,
      20000 * msPerDay + 17 * msPerHour, 9, none⟩]
  , mileageEntries :=
      [ ⟨20, 1, 4, "2024-10-04", none⟩
      , ⟨21, 1, 6, "2024-10-04", none⟩ ] }

/-- Clock instant for the C2 witness. -/
def nowC2 : Nat := 20001 * msPerDay

/-- Time entry of the C2 witness. -/
def entryC2 : TimeEntry :=
  ⟨10, 1, 20000 * msPerDay + 8 * msPerHour, 20000 * msPerDay + 17 * msPerHour, 9, none⟩

/-- Witness for C2 at a concrete store. -/
theorem c2_mileage_is_group_sum_witness :
    ((entryC2 ∈ windowTimeEntries storeC2 nowC2)
        ∧ (∃ me ∈ windowMileageEntries storeC2 nowC2,
            me.projectId = entryC2.projectId ∧ me.date = isoDate entryC2.startTime))
      ∧ parseFloatV ((rowOf storeC2 nowC2 entryC2).mileage)
          = (((windowMileageEntries storeC2 nowC2).filter
                (fun me => me.projectId == entryC2.projectId
                  && me.date == isoDate entryC2.startTime)).map MileageEntry.miles).sum := by
  have hh1 : entryC2 ∈ windowTimeEntries storeC2 nowC2 := by decide
  have hh2 : ∃ me ∈ windowMileageEntries storeC2 nowC2,
      me.projectId = entryC2.projectId ∧ me.date = isoDate entryC2.startTime :=
    ⟨⟨20, 1, 4, "2024-10-04", none⟩, by decide, by decide, by decide⟩
  exact ⟨⟨hh1, hh2⟩, (c2_mileage_is_group_sum storeC2 nowC2 entryC2 hh1 hh2).1⟩

/-- C10: when a row's (projectId, date) key does have window mileage
entries but their miles sum to 0, the falsy numeric sum is replaced by the
string sentinel exactly as when the key is absent: the row's mileage is
the string "0.00" either way, so a zero-mile entry is indistinguishable in
the report from no entry at all. -/
theorem c10_zero_sum_gets_string_default (store : Store) (now : Nat) (entry e2 : TimeEntry)
    (h1 : (windowMileageEntries store now).any
        (fun me => me.projectId == entry.projectId
          && me.date == isoDate entry.startTime) = true)
    (h2 : (((windowMileageEntries store now).filter
        (fun me => me.projectId == entry.projectId
          && me.date == isoDate entry.startTime)).map MileageEntry.miles).sum = 0)
    (h3 : (windowMileageEntries store now).any
        (fun me => me.projectId == e2.projectId
          && me.date == isoDate e2.startTime) = false) :
    (rowOf store now entry).mileage = .str "0.00"
      ∧ (rowOf store now e2).mileage = .str "0.00" := by
  constructor
  · have hany : (windowMileageEntries store now).any
        (hitsKey (mkKey entry.projectId (isoDate entry.startTime))) = true := by
      rw [any_hitsKey_eq_pair]
      exact h1
    have hz : milesForKey (windowMileageEntries store now)
        (mkKey entry.projectId (isoDate entry.startTime)) = 0 := by
      rw [milesForKey_eq_pair_sum]
      exact h2
    rw [rowOf_mileage, if_pos hany, hz, jsNumOr, if_pos rfl]
  · have hany : (windowMileageEntries store now).any
        (hitsKey (mkKey e2.projectId (isoDate e2.startTime))) = false := by
      rw [any_hitsKey_eq_pair]
      exact h3
    rw [rowOf_mileage, if_neg (by rw [hany]; exact Bool.false_ne_true)]
    rfl

/-- Scenario store for the C10 witness: a zero-mile mileage entry on the
report row's project and date, and a second time entry (project 2) with no
mileage entries at all. -/
def storeC10 : Store :=
  { projects := [⟨1, "Deck Build"⟩]
  , timeEntries :=
      [ ⟨10, 1, 20000 * msPerDay + 8 * msPerHour, 20000 * msPerDay + 17 * msPerHour, 9, none⟩
      , ⟨11, 2, 20000 * msPerDay + 8 * msPerHour, 20000 * msPerDay + 9 * msPerHour, 1, none⟩ ]
  , mileageEntries := [⟨20, 1, 0, "2024-10-04", none⟩] }

/-- Clock instant for the C10 witness. -/
def nowC10 : Nat := 20001 * msPerDay

/-- Time entry of the C10 witness whose key has the zero-mile entry. -/
def entryC10 : TimeEntry :=
  ⟨10, 1, 20000 * msPerDay + 8 * msPerHour, 20000 * msPerDay + 17 * msPerHour, 9, none⟩

/-- Time entry of the C10 witness whose key has no mileage entry. -/
def entryC10b : TimeEntry :=
  ⟨11, 2, 20000 * msPerDay + 8 * msPerHour, 20000 * msPerDay + 9 * msPerHour, 1, none⟩

/-- Witness for C10 at a concrete store. -/
theorem c10_zero_sum_gets_string_default_witness :
    ((windowMileageEntries storeC10 nowC10).any
        (fun me => me.projectId == entryC10.projectId
          && me.date == isoDate entryC10.startTime) = true)
      ∧ ((((windowMileageEntries storeC10 nowC10).filter
          (fun me => me.projectId == entryC10.projectId
            && me.date == isoDate entryC10.startTime)).map MileageEntry.miles).sum = 0)
      ∧ ((windowMileageEntries storeC10 nowC10).any
          (fun me => me.projectId == entryC10b.projectId
            && me.date == isoDate entryC10b.startTime) = false)
      ∧ (rowOf storeC10 nowC10 entryC10).mileage = .str "0.00"
      ∧ (rowOf storeC10 nowC10 entryC10b).mileage = .str "0.00" := by
  have hh1 : (windowMileageEntries storeC10 nowC10).any
      (fun me => me.projectId == entryC10.projectId
        && me.date == isoDate entryC10.startTime) = true := by decide
  have hh2 : (((windowMileageEntries storeC10 nowC10).filter
      (fun me => me.projectId == entryC10.projectId
        && me.date == isoDate entryC10.startTime)).map MileageEntry.miles).sum = 0 := by
    show ([(0 : ℚ)]).sum = 0
    simp
  have hh3 : (windowMileageEntries storeC10 nowC10).any
      (fun me => me.projectId == entryC10b.projectId
        && me.date == isoDate entryC10b.startTime) = false := by decide
  obtain ⟨hc1, hc2⟩ :=
    c10_zero_sum_gets_string_default storeC10 nowC10 entryC10 entryC10b hh1 hh2 hh3
  exact ⟨hh1, hh2, hh3, hc1, hc2⟩

/-- Scenario store for C3: two time entries on the same project and day,
one 10-mile mileage entry for that project and day. -/
def storeC3 : Store :=
  { projects := [⟨1, "Deck Build"⟩]
  , timeEntries :=
      [ ⟨10, 1, 20000 * msPerDay + 8 * msPerHour, 20000 * msPerDay + 17 * msPerHour, 9, none⟩
      , ⟨11, 1, 20000 * msPerDay + 18 * msPerHour, 20000 * msPerDay + 20 * msPerHour, 2, none⟩ ]
  , mileageEntries := [⟨20, 1, 10, "2024-10-04", none⟩] }

/-- Clock instant for the C3 scenario. -/
def nowC3 : Nat := 20001 * msPerDay

/-- C3: the summary's total miles is the sum of every row's (duplicated,
per-row) mileage value parsed back to a number, formatted to two decimal
places; concretely, with two time entries sharing one project and date and
a single 10-mile mileage entry, both rows carry mileage 10 and the summary
total is "20.00" — the documented double-count. -/
theorem c3_total_miles_double_counts :
    (∀ (store : Store) (now : Nat),
        (generateWeeklyCSV store now).totalMiles
          = toFixed2 (((csvData store now).map (fun r => parseFloatV r.mileage)).sum))
      ∧ (csvData storeC3 nowC3).map ReportRow.mileage = [.num 10, .num 10]
      ∧ (generateWeeklyCSV storeC3 nowC3).totalMiles = "20.00" := by
  have hval : (0 : ℚ) + 10 = 10 := by norm_num
  have hrow : jsNumOr (some ((0 : ℚ) + 10)) (.str "0.00") = .num 10 := by
    rw [hval, jsNumOr, if_neg (by norm_num : (10 : ℚ) ≠ 0)]
  refine ⟨totalMiles_eq_sum, ?_, ?_⟩
  · calc (csvData storeC3 nowC3).map ReportRow.mileage
        = [jsNumOr (some ((0 : ℚ) + 10)) (.str "0.00"),
           jsNumOr (some ((0 : ℚ) + 10)) (.str "0.00")] := rfl
      _ = [.num 10, .num 10] := by rw [hrow]
  · rw [totalMiles_eq_sum]
    have hmap : (csvData storeC3 nowC3).map (fun r => parseFloatV r.mileage)
        = [(10 : ℚ), 10] := by
      calc (csvData storeC3 nowC3).map (fun r => parseFloatV r.mileage)
          = [parseFloatV (jsNumOr (some ((0 : ℚ) + 10)) (.str "0.00")),
             parseFloatV (jsNumOr (some ((0 : ℚ) + 10)) (.str "0.00"))] := rfl
        _ = [(10 : ℚ), 10] := by
            rw [hrow]
            rfl
    rw [hmap]
    have hsum : ([(10 : ℚ), 10]).sum = 20 := by
      simp
      norm_num
    rw [hsum, toFixed2_of_round 20 2000 (by norm_num) (by norm_num [round_eq])]
    decide

end ClockSlayer
